import Mathlib

/-!
Shallow embedding of `ex2/nexus_pipeline.py`: a multi-stage, format-polymorphic
data-processing pipeline.  Python's dynamically-typed payloads are modelled by
the inductive type `Val`; Python `float` is modelled by `ℚ` (exact rational
arithmetic; every decimal literal appearing in the program is used at values
where the binary-float and rational computations agree).  Python dictionaries
are modelled as insertion-ordered association lists with string keys, which is
how every dictionary in the program is used.  All functions are total, which
reflects the source: no code path in the pipeline module raises.
-/

/-- A dynamically-typed Python value as used by the pipeline module:
strings, ints, floats (as exact rationals), bools, `None`, lists, and
(string-keyed, insertion-ordered) dicts. -/
inductive Val where
| vstr (s : String)
| vint (n : Int)
| vfloat (q : ℚ)
| vbool (b : Bool)
| vnone
| vlist (xs : List Val)
| vdict (d : List (String × Val))

/-- `isinstance(x, str)`. -/
def Val.isStr : Val → Bool
| .vstr _ => true
| _ => false

/-- `isinstance(x, dict)`. -/
def Val.isDict : Val → Bool
| .vdict _ => true
| _ => false

/-- `isinstance(x, list)`. -/
def Val.isList : Val → Bool
| .vlist _ => true
| _ => false

/-- `isinstance(x, (int, float))`.  In Python `bool` is a subclass of `int`,
so booleans count as numeric. -/
def Val.isNumeric : Val → Bool
| .vint _ => true
| .vfloat _ => true
| .vbool _ => true
| _ => false

/-- `float(x)` on a numeric value (`float(True) = 1.0`); the default `0` is
never reached on the guarded code paths. -/
def Val.toF : Val → ℚ
| .vint n => (n : ℚ)
| .vfloat q => q
| .vbool b => if b then 1 else 0
| _ => 0

/-- Python dict item assignment `d[k] = v`: if the key is present its value is
updated in place (keeping its position), otherwise the pair is appended. -/
def dictSet (d : List (String × Val)) (k : String) (v : Val) :
    List (String × Val) :=
  if d.any (fun p => p.1 == k) then
    d.map (fun p => if p.1 == k then (k, v) else p)
  else
    d ++ [(k, v)]

/-- Python dict lookup `d.get(k)` / membership `k in d`. -/
def dictLookup (d : List (String × Val)) (k : String) : Option Val :=
  (d.find? (fun p => p.1 == k)).map (fun p => p.2)

/-- The characters stripped by Python `str.strip()` (the ASCII whitespace
relevant to this program). -/
def isPySpace (c : Char) : Bool :=
  c = ' ' || c = Char.ofNat 9 || c = Char.ofNat 10 ||
  c = Char.ofNat 13 || c = Char.ofNat 11 || c = Char.ofNat 12

/-- Python `str.strip()`: drop leading and trailing whitespace. -/
def pyStrip (s : String) : String :=
  String.mk (((s.data.dropWhile isPySpace).reverse.dropWhile isPySpace).reverse)

/-- Python `str.upper()` (ASCII case mapping, which covers every string the
program manipulates). -/
def pyUpper (s : String) : String :=
  String.mk (s.data.map Char.toUpper)

/-- Python `str.split` on the single-character separator `c`, on the
character list of the string: `"".split(c) = [""]`, and each occurrence of
`c` opens a new field. -/
def splitOnChar (c : Char) : List Char → List (List Char)
| [] => [[]]
| a :: rest =>
  match splitOnChar c rest with
  | [] => [[a]]
  | l :: ls => if a = c then [] :: l :: ls else (a :: l) :: ls

/-- Python `s.split(c)` for a single-character separator, as strings. -/
def pySplit (s : String) (c : Char) : List String :=
  (splitOnChar c s.data).map String.mk

/-- Smallest `k ≤ 30` with `den ∣ 10^k`, if any: the decimal exponent of an
exactly-representable decimal fraction. -/
def decExp (den : Nat) : Option Nat :=
  (List.range 31).find? (fun k => (10 : Nat) ^ k % den == 0)

/-- Left-pad a digit string with zeros to width `k`. -/
def padZeros (s : String) (k : Nat) : String :=
  String.mk (List.replicate (k - s.length) (Char.ofNat 48)) ++ s

/-- Python `str(x)` for a float `x`, modelled on exact rationals: a value
with a terminating decimal expansion prints as its shortest decimal form
(integral floats keep a trailing `.0`, as Python does).  The final branch is
a fallback for non-decimal rationals, which no program value produces. -/
def floatStr (q : ℚ) : String :=
  match decExp q.den with
  | some 0 => toString q.num ++ ".0"
  | some k =>
    let m : Nat := q.num.natAbs * ((10 : Nat) ^ k / q.den)
    (if q.num < 0 then String.mk [Char.ofNat 45] else String.mk []) ++
      toString (m / 10 ^ k) ++ "." ++ padZeros (toString (m % 10 ^ k)) k
  | none => toString q.num ++ "/" ++ toString q.den

/-- Rational addition, computed on numerators and denominators (the kernel
can evaluate this form on concrete inputs; `qadd_eq` proves it is `+` on
`ℚ`). -/
def qadd (a b : ℚ) : ℚ :=
  Rat.divInt (a.num * b.den + b.num * a.den) (a.den * b.den)

/-- Rational division, computed on numerators and denominators (`qdiv_eq`
proves it is `/` on `ℚ`). -/
def qdiv (a b : ℚ) : ℚ :=
  Rat.divInt (a.num * b.den) (a.den * b.num)

/-- The rational value of a natural number (`qofNat_eq` proves it is the
cast). -/
def qofNat (n : Nat) : ℚ := mkRat n 1

/-- Python `sum(xs)` on rationals: a left fold of `+` starting from `0`
(`qsum_eq` proves it is `List.sum`). -/
def qsum (xs : List ℚ) : ℚ := xs.foldl qadd 0

/-- Round `q * 10` to the nearest integer, ties to even — the rounding
performed by Python's `:.1f` formatting — computed on the numerator and
denominator: with `f = ⌊q * 10⌋` and remainder `r = q * 10 - f`, the result
is `f` when `r < 1/2`, `f + 1` when `r > 1/2`, and the even neighbour on a
tie (`roundTenthsEven_eq` proves this reading). -/
def roundTenthsEven (q : ℚ) : ℤ :=
  let n := q.num * 10
  let d : ℤ := q.den
  let f := Int.fdiv n d
  let rnum := n - f * d
  if 2 * rnum < d then f
  else if d < 2 * rnum then f + 1
  else if f % 2 = 0 then f else f + 1

/-- Rounding to the nearest integer with ties to even, stated directly on
`ℚ` with `Int.floor` and `Int.fract`: the statement-side reading of the
rounding inside `roundTenthsEven` (see `roundTenthsEven_eq`). -/
def roundHalfEvenSpec (x : ℚ) : ℤ :=
  if Int.fract x < 1 / 2 then ⌊x⌋
  else if 1 / 2 < Int.fract x then ⌊x⌋ + 1
  else if ⌊x⌋ % 2 = 0 then ⌊x⌋ else ⌊x⌋ + 1

/-- Python `f"{x:.1f}"`: fixed-point formatting with one decimal digit. -/
def fmt1f (q : ℚ) : String :=
  let n := roundTenthsEven q
  let m := n.natAbs
  (if n < 0 then String.mk [Char.ofNat 45] else String.mk []) ++
    toString (m / 10) ++ "." ++ toString (m % 10)

/-- The single-quote character used by Python `repr` of strings. -/
def pyQuote : String := (Char.ofNat 39).toString

mutual
/-- Python `repr(x)` for the values of this program (strings render between
single quotes; the escaping of special characters inside them is not modelled,
as no program value reaches `repr` with such characters). -/
def pyRepr : Val → String
| .vstr s => pyQuote ++ s ++ pyQuote
| .vint n => toString n
| .vfloat q => floatStr q
| .vbool b => if b then "True" else "False"
| .vnone => "None"
| .vlist xs => "[" ++ pyReprList xs ++ "]"
| .vdict d => "\x7b" ++ pyReprDict d ++ "\x7d"

/-- Comma-joined `repr`s of list elements. -/
def pyReprList : List Val → String
| [] => ""
| [x] => pyRepr x
| x :: y :: xs => pyRepr x ++ ", " ++ pyReprList (y :: xs)

/-- Comma-joined `repr`s of dict items. -/
def pyReprDict : List (String × Val) → String
| [] => ""
| [(k, v)] => pyQuote ++ k ++ pyQuote ++ ": " ++ pyRepr v
| (k, v) :: p :: ds => pyQuote ++ k ++ pyQuote ++ ": " ++ pyRepr v ++ ", " ++ pyReprDict (p :: ds)
end

/-- Python `str(x)`: the string itself for strings, otherwise `repr`
(for ints, floats, bools, `None`, lists and dicts, `str` and `repr`
coincide, with containers using `repr` of their elements). -/
def pyStr : Val → String
| .vstr s => s
| v => pyRepr v

/-- The three stage classes of the module: `InputStage`, `TransformStage`,
`OutputStage`. -/
inductive Stage where
| input
| transform
| output

/-- `InputStage.process`: returns the data unmodified. -/
def InputStage.process (data : Val) : Val := data

/-- A list element of `TransformStage`: `float(item) if isinstance(item,
(int, float)) else item`. -/
def floatifyItem (item : Val) : Val :=
  if item.isNumeric then .vfloat item.toF else item

/-- `TransformStage.process`: a dict gets a shallow copy with `_validated`
and `_metadata_added` set to `True`; a string is stripped and upper-cased;
a list has its numeric elements converted to float; anything else is
returned unchanged. -/
def TransformStage.process (data : Val) : Val :=
  match data with
  | .vdict d =>
    .vdict (dictSet (dictSet d "_validated" (.vbool true))
      "_metadata_added" (.vbool true))
  | .vstr s => .vstr (pyUpper (pyStrip s))
  | .vlist xs => .vlist (xs.map floatifyItem)
  | v => v

/-- `OutputStage.process`: returns the data unmodified. -/
def OutputStage.process (data : Val) : Val := data

/-- Dispatch `stage.process(data)` on the stage class. -/
def Stage.process : Stage → Val → Val
| .input, data => InputStage.process data
| .transform, data => TransformStage.process data
| .output, data => OutputStage.process data

/-- Which payload shapes a stage's `process` branches on (the `isinstance`
tests it performs); on every other shape the stage is the identity.
`InputStage` and `OutputStage` branch on nothing. -/
def Stage.recognizes : Stage → Val → Bool
| .input, _ => false
| .transform, v => v.isDict || v.isStr || v.isList
| .output, _ => false

/-- The shared prologue of every adapter's `process`: `result = data;
for stage in self.stages: result = stage.process(result)`. -/
def runStages (stages : List Stage) (data : Val) : Val :=
  stages.foldl (fun result stage => stage.process result) data

/-- The adapter classes: `JSONAdapter`, `CSVAdapter`, `StreamAdapter`. -/
inductive AdapterKind where
| json
| csv
| stream

/-- A concrete `ProcessingPipeline` instance: its class, its `pipeline_id`,
and its mutable `stages` list. -/
structure Adapter where
  kind : AdapterKind
  pipeline_id : String
  stages : List Stage

/-- The `format_type` attribute set by each adapter's constructor. -/
def Adapter.format_type (a : Adapter) : String :=
  match a.kind with
  | .json => "JSON"
  | .csv => "CSV"
  | .stream => "Stream"

/-- `ProcessingPipeline.add_stage`: appends the stage to `self.stages`. -/
def ProcessingPipeline.add_stage (a : Adapter) (stage : Stage) : Adapter :=
  { a with stages := a.stages ++ [stage] }

/-- The epilogue of `JSONAdapter.process` after the stage fold: a dict
containing `"sensor"` renders the sensor-reading sentence with `value`
defaulting to `0` and `unit` to `""`; anything else renders as `str(result)`. -/
def JSONAdapter.finalize (result : Val) : String :=
  match result with
  | .vdict d =>
    match dictLookup d "sensor" with
    | some sensor =>
      let value := (dictLookup d "value").getD (.vint 0)
      let unit := (dictLookup d "unit").getD (.vstr "")
      "Processed " ++ pyStr sensor ++ " reading: " ++ pyStr value ++ "°" ++
        pyStr unit ++ " (Normal range)"
    | none => pyStr (.vdict d)
  | v => pyStr v

/-- The epilogue of `CSVAdapter.process`: it looks at the ORIGINAL `data`
(not the folded result); a string is stripped and split on newlines and the
line count minus one is reported (the `if lines:` test is Python truthiness
of the split, which is never empty); anything else renders as
`str(result)`. -/
def CSVAdapter.finalize (data result : Val) : String :=
  match data with
  | .vstr s =>
    let lines := pySplit (pyStrip s) (Char.ofNat 10)
    if lines.length ≠ 0 then
      "User activity logged: " ++ toString (lines.length - 1) ++
        " actions processed"
    else pyStr result
  | _ => pyStr result

/-- The epilogue of `StreamAdapter.process`: a list result reports its length
and the one-decimal average (sum of the elements when all are numeric, else
`0`, divided by the length when positive, else `0`); anything else renders as
`str(result)`. -/
def StreamAdapter.finalize (result : Val) : String :=
  match result with
  | .vlist xs =>
    let numeric := xs.all Val.isNumeric
    let total : ℚ := if numeric then qsum (xs.map Val.toF) else 0
    let avg : ℚ := if 0 < xs.length then qdiv total (qofNat xs.length) else 0
    "Stream summary: " ++ toString xs.length ++ " readings, avg: " ++
      fmt1f avg ++ "°C"
  | v => pyStr v

/-- `process(data)` of an adapter: fold the payload through the stage list,
then apply the class's finalization epilogue (the CSV epilogue also sees the
original payload).  Every return statement of every adapter produces a
string. -/
def Adapter.process (a : Adapter) (data : Val) : String :=
  let result := runStages a.stages data
  match a.kind with
  | .json => JSONAdapter.finalize result
  | .csv => CSVAdapter.finalize data result
  | .stream => StreamAdapter.finalize result

/-- `Adapter.process` with the Python method's `self` threaded explicitly:
the body reads `self.stages` but contains no assignment to any attribute of
`self`, so the returned state is the received one. -/
def Adapter.processMut (a : Adapter) (data : Val) : String × Adapter :=
  (a.process data, a)

/-- `NexusManager`: owns the list of registered pipelines. -/
structure NexusManager where
  pipelines : List Adapter

/-- `NexusManager.add_pipeline`: appends to the registry. -/
def NexusManager.add_pipeline (m : NexusManager) (p : Adapter) : NexusManager :=
  { m with pipelines := m.pipelines ++ [p] }

/-- The `for pipeline in self.pipelines` loop of `process_with_pipeline`:
return the first registered pipeline whose `format_type` equals the request,
applied to the data; return `""` when the loop finds none. -/
def routeScan (ps : List Adapter) (pipeline_type : String) (data : Val) :
    String :=
  match ps with
  | [] => ""
  | p :: rest =>
    if p.format_type == pipeline_type then p.process data
    else routeScan rest pipeline_type data

/-- `NexusManager.process_with_pipeline(pipeline_type, data)`. -/
def NexusManager.process_with_pipeline (m : NexusManager)
    (pipeline_type : String) (data : Val) : String :=
  routeScan m.pipelines pipeline_type data

/-- `process_with_pipeline` with `self` threaded explicitly: the body only
reads the registry, so the returned state is the received one. -/
def NexusManager.processWithPipelineMut (m : NexusManager)
    (pipeline_type : String) (data : Val) : String × NexusManager :=
  (m.process_with_pipeline pipeline_type data, m)

/-- The three-stage pipeline built for each adapter in `main()`:
`InputStage`, `TransformStage`, `OutputStage`. -/
def mainStages : List Stage := [.input, .transform, .output]

/-- The manager assembled in `main()`: a JSON, a CSV and a Stream adapter,
each with the three standard stages, registered in that order. -/
def mainManager : NexusManager :=
  ((NexusManager.mk []).add_pipeline
      (ProcessingPipeline.add_stage (ProcessingPipeline.add_stage
        (ProcessingPipeline.add_stage (Adapter.mk .json "JSON_001" []) .input)
        .transform) .output)).add_pipeline
    (ProcessingPipeline.add_stage (ProcessingPipeline.add_stage
      (ProcessingPipeline.add_stage (Adapter.mk .csv "CSV_001" []) .input)
      .transform) .output) |>.add_pipeline
    (ProcessingPipeline.add_stage (ProcessingPipeline.add_stage
      (ProcessingPipeline.add_stage (Adapter.mk .stream "STREAM_001" []) .input)
      .transform) .output)

theorem splitOnChar_ne_nil (c : Char) (l : List Char) : splitOnChar c l ≠ [] := by
  induction l with
  | nil => simp [splitOnChar]
  | cons a rest ih =>
    simp only [splitOnChar]
    cases h : splitOnChar c rest with
    | nil => simp
    | cons hd tl => by_cases hac : a = c <;> simp [hac]

theorem splitOnChar_length (c : Char) (l : List Char) :
    (splitOnChar c l).length = l.count c + 1 := by
  induction l with
  | nil => simp [splitOnChar]
  | cons a rest ih =>
    simp only [splitOnChar]
    cases h : splitOnChar c rest with
    | nil => exact absurd h (splitOnChar_ne_nil c rest)
    | cons hd tl =>
      rw [h] at ih
      simp only [List.length_cons] at ih
      by_cases hac : a = c
      · simp [if_pos hac, List.count_cons, hac]
        all_goals omega
      · simp [if_neg hac, List.count_cons, hac]
        all_goals omega

theorem dictLookup_map_set_self (k : String) (v : Val) (d : List (String × Val))
    (hmem : d.any (fun p => p.1 == k) = true) :
    dictLookup (d.map (fun p => if p.1 == k then (k, v) else p)) k = some v := by
  induction d with
  | nil => simp at hmem
  | cons a rest ih =>
    by_cases ha : a.1 = k
    · simp [dictLookup, ha]
    · have hmem' : rest.any (fun p => p.1 == k) = true := by
        simpa [ha] using hmem
      simp only [List.map_cons, if_neg (by simp [ha] : ¬(a.1 == k) = true)]
      simp only [dictLookup] at ih ⊢
      rw [List.find?_cons_of_neg _ (by simp [ha])]
      exact ih hmem'

theorem dictLookup_map_set_ne (k k' : String) (v : Val) (d : List (String × Val))
    (hne : k' ≠ k) :
    dictLookup (d.map (fun p => if p.1 == k then (k, v) else p)) k' =
      dictLookup d k' := by
  induction d with
  | nil => simp [dictLookup]
  | cons a rest ih =>
    by_cases ha : a.1 = k
    · simp only [List.map_cons, if_pos (by simp [ha] : (a.1 == k) = true)]
      simp only [dictLookup] at ih ⊢
      rw [List.find?_cons_of_neg _ (by simp [Ne.symm hne]),
        List.find?_cons_of_neg _ (by simp [ha, Ne.symm hne])]
      exact ih
    · simp only [List.map_cons, if_neg (by simp [ha] : ¬(a.1 == k) = true)]
      simp only [dictLookup] at ih ⊢
      by_cases ha' : a.1 = k'
      · rw [List.find?_cons_of_pos _ (by simp [ha']),
          List.find?_cons_of_pos _ (by simp [ha'])]
      · rw [List.find?_cons_of_neg _ (by simp [ha']),
          List.find?_cons_of_neg _ (by simp [ha'])]
        exact ih

theorem dictLookup_append_single_self (k : String) (v : Val)
    (d : List (String × Val)) (hmem : d.any (fun p => p.1 == k) = false) :
    dictLookup (d ++ [(k, v)]) k = some v := by
  induction d with
  | nil => simp [dictLookup]
  | cons a rest ih =>
    simp only [List.any_cons, Bool.or_eq_false_iff] at hmem
    simp only [dictLookup] at ih ⊢
    rw [List.cons_append, List.find?_cons_of_neg _ (by simp [hmem.1])]
    exact ih hmem.2

theorem dictLookup_append_single_ne (k k' : String) (v : Val)
    (d : List (String × Val)) (hne : k' ≠ k) :
    dictLookup (d ++ [(k, v)]) k' = dictLookup d k' := by
  induction d with
  | nil => simp [dictLookup, Ne.symm hne]
  | cons a rest ih =>
    simp only [dictLookup] at ih ⊢
    by_cases ha : a.1 = k'
    · rw [List.cons_append, List.find?_cons_of_pos _ (by simp [ha]),
        List.find?_cons_of_pos _ (by simp [ha])]
    · rw [List.cons_append, List.find?_cons_of_neg _ (by simp [ha]),
        List.find?_cons_of_neg _ (by simp [ha])]
      exact ih

theorem dictLookup_dictSet_self (d : List (String × Val)) (k : String) (v : Val) :
    dictLookup (dictSet d k v) k = some v := by
  rw [dictSet]
  split
  next h => exact dictLookup_map_set_self k v d h
  next h => exact dictLookup_append_single_self k v d (by rwa [Bool.not_eq_true] at h)

/-- Setting a key the dict does not contain leaves other lookups alone. -/
theorem dictLookup_dictSet_ne (d : List (String × Val)) (k k' : String)
    (v : Val) (hne : k' ≠ k) :
    dictLookup (dictSet d k v) k' = dictLookup d k' := by
  rw [dictSet]
  split
  next h => exact dictLookup_map_set_ne k k' v d hne
  next h => exact dictLookup_append_single_ne k k' v d hne

/-- Setting an absent key appends the pair. -/
theorem dictSet_of_not_mem (d : List (String × Val)) (k : String) (v : Val)
    (h : d.any (fun p => p.1 == k) = false) :
    dictSet d k v = d ++ [(k, v)] := by
  rw [dictSet, if_neg (by simp [h])]

/-- `qadd` is rational addition. -/
theorem qadd_eq (a b : ℚ) : qadd a b = a + b := by
  conv_rhs => rw [← Rat.num_div_den a, ← Rat.num_div_den b]
  rw [qadd, Rat.divInt_eq_div]
  push_cast
  rw [div_add_div]
  · ring_nf
  · exact_mod_cast a.den_nz
  · exact_mod_cast b.den_nz

/-- `qdiv` is rational division. -/
theorem qdiv_eq (a b : ℚ) : qdiv a b = a / b := by
  by_cases hb : b = 0
  · subst hb
    simp [qdiv]
  · have hbn : (b.num : ℚ) ≠ 0 := by
      exact_mod_cast Rat.num_ne_zero.mpr hb
    have had : (a.den : ℚ) ≠ 0 := by exact_mod_cast a.den_nz
    have hbd : (b.den : ℚ) ≠ 0 := by exact_mod_cast b.den_nz
    conv_rhs => rw [← Rat.num_div_den a, ← Rat.num_div_den b]
    rw [qdiv, Rat.divInt_eq_div]
    push_cast
    field_simp

/-- `qofNat` is the natural-number cast. -/
theorem qofNat_eq (n : Nat) : qofNat n = (n : ℚ) := by
  rw [qofNat]
  exact_mod_cast Rat.mkRat_one (n : ℤ)

/-- `qsum` is `List.sum`. -/
theorem qsum_eq (xs : List ℚ) : qsum xs = xs.sum := by
  have h : qadd = (· + ·) := funext fun a => funext fun b => qadd_eq a b
  rw [qsum, h, ← List.sum_eq_foldl]

/-- The integer-level rounding of `roundTenthsEven` is round-half-to-even of
`q * 10`, in the floor/fract reading of `roundHalfEvenSpec`. -/
theorem roundTenthsEven_eq (q : ℚ) : roundTenthsEven q = roundHalfEvenSpec (q * 10) := by
  have hd0 : (0 : ℤ) < (q.den : ℤ) := by exact_mod_cast q.pos
  have hdq : ((q.den : ℤ) : ℚ) ≠ 0 := by
    exact_mod_cast q.den_nz
  have hq10 : (q * 10 : ℚ) = ((q.num * 10 : ℤ) : ℚ) / ((q.den : ℤ) : ℚ) := by
    conv_lhs => rw [← Rat.num_div_den q]
    push_cast
    ring
  have hfl : ⌊(q * 10 : ℚ)⌋ = Int.fdiv (q.num * 10) (q.den : ℤ) := by
    rw [hq10, Int.fdiv_eq_ediv _ (le_of_lt hd0)]
    have := Rat.floor_intCast_div_natCast (q.num * 10) q.den
    rw [← this]
    norm_cast
  have hfr : Int.fract (q * 10) =
      ((q.num * 10 - ⌊(q * 10 : ℚ)⌋ * (q.den : ℤ) : ℤ) : ℚ) / ((q.den : ℤ) : ℚ) := by
    rw [Int.fract]
    rw [hq10]
    push_cast
    field_simp
    ring
  rw [roundTenthsEven, roundHalfEvenSpec]
  simp only [← hfl]
  have h1 : (2 * (q.num * 10 - ⌊(q * 10 : ℚ)⌋ * (q.den : ℤ)) < (q.den : ℤ)) ↔
      Int.fract (q * 10) < 1 / 2 := by
    rw [hfr, div_lt_iff₀ (by positivity)]
    constructor
    · intro h
      have : ((2 * (q.num * 10 - ⌊(q * 10 : ℚ)⌋ * (q.den : ℤ)) : ℤ) : ℚ) <
          ((q.den : ℤ) : ℚ) := by exact_mod_cast h
      push_cast at this ⊢
      linarith
    · intro h
      have : ((2 * (q.num * 10 - ⌊(q * 10 : ℚ)⌋ * (q.den : ℤ)) : ℤ) : ℚ) <
          ((q.den : ℤ) : ℚ) := by push_cast; push_cast at h; linarith
      exact_mod_cast this
  have h2 : ((q.den : ℤ) < 2 * (q.num * 10 - ⌊(q * 10 : ℚ)⌋ * (q.den : ℤ))) ↔
      1 / 2 < Int.fract (q * 10) := by
    rw [hfr, lt_div_iff₀ (by positivity)]
    constructor
    · intro h
      have : ((q.den : ℤ) : ℚ) <
          ((2 * (q.num * 10 - ⌊(q * 10 : ℚ)⌋ * (q.den : ℤ)) : ℤ) : ℚ) := by exact_mod_cast h
      push_cast at this ⊢
      linarith
    · intro h
      have : ((q.den : ℤ) : ℚ) <
          ((2 * (q.num * 10 - ⌊(q * 10 : ℚ)⌋ * (q.den : ℤ)) : ℤ) : ℚ) := by push_cast; push_cast at h; linarith
      exact_mod_cast this
  rw [if_congr h1 rfl rfl, if_congr h2 rfl rfl]


/-- Claim C1: `process_with_pipeline` scans the registry in registration
order and applies the first adapter whose `format_type` equals the requested
tag to the payload (so with duplicate tags the first-registered adapter wins
regardless of payload); when no registered adapter matches, it returns the
empty-string sentinel rather than raising (the embedding is total). -/
theorem C1_route_first_match (m : NexusManager) (t : String) (d : Val) :
    (∀ pre a post, m.pipelines = pre ++ a :: post → a.format_type = t →
      (∀ b ∈ pre, b.format_type ≠ t) →
      m.process_with_pipeline t d = a.process d) ∧
    ((∀ a ∈ m.pipelines, a.format_type ≠ t) →
      m.process_with_pipeline t d = "") := by
  obtain ⟨ps⟩ := m
  rw [NexusManager.process_with_pipeline]
  induction ps with
  | nil =>
    refine ⟨fun pre a post heq => absurd heq (by simp), fun _ => rfl⟩
  | cons p rest ih =>
    constructor
    · intro pre a post heq hfmt hpre
      cases pre with
      | nil =>
        simp only [List.nil_append, List.cons.injEq] at heq
        rw [routeScan, if_pos (by simp [heq.1, hfmt])]
        rw [heq.1]
      | cons b pre' =>
        simp only [List.cons_append, List.cons.injEq] at heq
        rw [routeScan, if_neg (by simp only [beq_iff_eq]; rw [heq.1]; exact hpre b (by simp))]
        exact ih.1 pre' a post heq.2 hfmt fun b' hb' => hpre b' (by simp [hb'])
    · intro h
      rw [routeScan, if_neg (by simp; exact h p (by simp))]
      exact ih.2 fun a ha => h a (by simp [ha])

/-- Witness for C1: with two `JSONAdapter`s registered first and second, the
`"JSON"` request is handled by the first; an unregistered `"XML"` tag
returns `""`. -/
theorem C1_witness :
    (NexusManager.mk [Adapter.mk .json "A" [], Adapter.mk .json "B" [],
        Adapter.mk .csv "C" []]).process_with_pipeline "JSON" (.vint 1) =
      (Adapter.mk .json "A" []).process (.vint 1) ∧
    (NexusManager.mk [Adapter.mk .json "A" []]).process_with_pipeline "XML"
      (.vint 1) = "" := by
  constructor
  · exact (C1_route_first_match _ _ _).1 [] (Adapter.mk .json "A" [])
      [Adapter.mk .json "B" [], Adapter.mk .csv "C" []] rfl rfl (by simp)
  · refine (C1_route_first_match _ _ _).2 ?_
    intro a ha
    simp only [List.mem_singleton] at ha
    subst ha
    decide

/-- Claim C5: every stage (`InputStage`, `TransformStage`, `OutputStage`)
returns its input unchanged on any payload shape it does not branch on, and
(being a total function in this embedding, as in the source) never raises. -/
theorem C5_stage_identity_on_unrecognized (st : Stage) (v : Val)
    (h : st.recognizes v = false) : st.process v = v := by
  cases st with
  | input => rfl
  | output => rfl
  | transform =>
    cases v <;>
      first
      | rfl
      | simp [Stage.recognizes, Val.isDict, Val.isStr, Val.isList] at h

/-- Witness for C5: the transform stage does not recognize an int payload
and passes it through unchanged. -/
theorem C5_witness :
    Stage.recognizes .transform (.vint 7) = false ∧
    Stage.process .transform (.vint 7) = .vint 7 :=
  ⟨rfl, C5_stage_identity_on_unrecognized .transform (.vint 7) rfl⟩

/-- Claim C6: a pipeline with an empty stage sequence degenerates to the
finalizer applied directly to the original payload, for each of the three
adapters (the CSV finalizer receives the original payload in both roles). -/
theorem C6_empty_pipeline (pid : String) (d : Val) :
    (Adapter.mk .json pid []).process d = JSONAdapter.finalize d ∧
    (Adapter.mk .csv pid []).process d = CSVAdapter.finalize d d ∧
    (Adapter.mk .stream pid []).process d = StreamAdapter.finalize d :=
  ⟨rfl, rfl, rfl⟩

/-- Claim C9: `process` leaves the adapter unchanged and
`process_with_pipeline` leaves the manager unchanged (their bodies, threaded
explicitly, return the incoming state); `add_stage` appends exactly one
stage and changes no other field (`pipeline_id`, class, `format_type`). -/
theorem C9_frame (a : Adapter) (d : Val) (st : Stage) (m : NexusManager)
    (t : String) :
    (a.processMut d).2 = a ∧
    (m.processWithPipelineMut t d).2 = m ∧
    (ProcessingPipeline.add_stage a st).stages = a.stages ++ [st] ∧
    (ProcessingPipeline.add_stage a st).stages.length = a.stages.length + 1 ∧
    (ProcessingPipeline.add_stage a st).pipeline_id = a.pipeline_id ∧
    (ProcessingPipeline.add_stage a st).kind = a.kind ∧
    (ProcessingPipeline.add_stage a st).format_type = a.format_type :=
  ⟨rfl, rfl, rfl, by simp [ProcessingPipeline.add_stage], rfl, rfl, rfl⟩

/-- Claim C7: on a mapping payload the transform stage returns a shallow
copy with the two boolean markers `_validated` and `_metadata_added` set to
`True`, leaving the lookup of every other key unchanged; when the marker
keys are absent from the input, the result is exactly the input items
followed by the two new marker pairs. -/
theorem C7_transform_dict (dd : List (String × Val)) :
    ∃ r, TransformStage.process (.vdict dd) = .vdict r ∧
      dictLookup r "_validated" = some (.vbool true) ∧
      dictLookup r "_metadata_added" = some (.vbool true) ∧
      (∀ k, k ≠ "_validated" → k ≠ "_metadata_added" →
        dictLookup r k = dictLookup dd k) ∧
      (dd.any (fun p => p.1 == "_validated") = false →
        dd.any (fun p => p.1 == "_metadata_added") = false →
        r = dd ++ [("_validated", .vbool true),
          ("_metadata_added", .vbool true)]) := by
  refine ⟨dictSet (dictSet dd "_validated" (.vbool true)) "_metadata_added"
    (.vbool true), rfl, ?_, ?_, ?_, ?_⟩
  · rw [dictLookup_dictSet_ne _ _ _ _ (by decide)]
    exact dictLookup_dictSet_self _ _ _
  · exact dictLookup_dictSet_self _ _ _
  · intro k hk1 hk2
    rw [dictLookup_dictSet_ne _ _ _ _ hk2, dictLookup_dictSet_ne _ _ _ _ hk1]
  · intro h1 h2
    rw [dictSet_of_not_mem _ _ _ h1, dictSet_of_not_mem, List.append_assoc]
    · rfl
    · simp only [List.any_append, Bool.or_eq_false_iff]
      exact ⟨h2, by decide⟩

/-- Witness for C7: a concrete one-key dict gains the two markers, keeps its
own key, and takes the append form. -/
theorem C7_witness :
    ∃ r, TransformStage.process (.vdict [("a", .vint 1)]) = .vdict r ∧
      dictLookup r "_validated" = some (.vbool true) ∧
      dictLookup r "_metadata_added" = some (.vbool true) ∧
      dictLookup r "a" = dictLookup [("a", .vint 1)] "a" ∧
      r = [("a", .vint 1)] ++ [("_validated", .vbool true),
        ("_metadata_added", .vbool true)] := by
  obtain ⟨r, h1, h2, h3, h4, h5⟩ := C7_transform_dict [("a", .vint 1)]
  exact ⟨r, h1, h2, h3, h4 "a" (by decide) (by decide),
    h5 (by decide) (by decide)⟩

/-- Claim C8: on a sequence payload the transform stage returns a new
sequence of the same length in which each numeric element (position by
position) is converted to float and each non-numeric element passes through
unchanged. -/
theorem C8_transform_list (xs : List Val) :
    ∃ ys, TransformStage.process (.vlist xs) = .vlist ys ∧
      ys.length = xs.length ∧
      (∀ (i : Nat) (v : Val), xs[i]? = some v → v.isNumeric = true →
        ys[i]? = some (.vfloat v.toF)) ∧
      (∀ (i : Nat) (v : Val), xs[i]? = some v → v.isNumeric = false →
        ys[i]? = some v) := by
  refine ⟨xs.map floatifyItem, rfl, by simp, ?_, ?_⟩
  · intro i v hv hnum
    rw [List.getElem?_map, hv]
    simp [floatifyItem, hnum]
  · intro i v hv hnum
    rw [List.getElem?_map, hv]
    simp [floatifyItem, hnum]

/-- Witness for C8: a mixed int/string list keeps its length, the int
becomes a float, and the string is untouched. -/
theorem C8_witness :
    ∃ ys, TransformStage.process (.vlist [.vint 2, .vstr "a"]) = .vlist ys ∧
      ys.length = 2 ∧
      ys[0]? = some (.vfloat (Val.toF (.vint 2))) ∧
      ys[1]? = some (.vstr "a") := by
  obtain ⟨ys, h1, h2, h3, h4⟩ := C8_transform_list [.vint 2, .vstr "a"]
  exact ⟨ys, h1, h2, h3 0 (.vint 2) rfl rfl, h4 1 (.vstr "a") rfl rfl⟩

/-- A split is never the empty list (Python truthiness of `lines` is always
true for a string payload). -/
theorem pySplit_length_pos (s : String) (c : Char) : 0 < (pySplit s c).length := by
  rw [pySplit, List.length_map]
  exact List.length_pos.mpr (splitOnChar_ne_nil c s.data)

/-- The number of split fields is the separator count plus one. -/
theorem pySplit_length (s : String) (c : Char) :
    (pySplit s c).length = s.data.count c + 1 := by
  rw [pySplit, List.length_map, splitOnChar_length]

/-- On a string payload the CSV adapter always takes the line-report branch:
strip, split on newlines, and report the field count minus one, whatever the
stage list did to the folded result. -/
theorem csv_process_vstr (pid : String) (stages : List Stage) (s : String) :
    (Adapter.mk .csv pid stages).process (.vstr s) =
      "User activity logged: " ++
        toString ((pySplit (pyStrip s) (Char.ofNat 10)).length - 1) ++
        " actions processed" := by
  show CSVAdapter.finalize (.vstr s) (runStages stages (.vstr s)) = _
  rw [CSVAdapter.finalize]
  exact if_pos (Nat.pos_iff_ne_zero.mp (pySplit_length_pos _ _))

/-- Claim C2: the CSV finalizer counts lines of the ORIGINAL payload — its
output on a string payload is independent of the stage list (equal to the
empty-pipeline run) and equals the line-count template; a non-string
payload falls back to the generic string form of the transformed result;
and the routed example from the spec produces `1 actions processed`. -/
theorem C2_csv_counts_original (pid : String) (stages : List Stage)
    (s : String) (d : Val) :
    (Adapter.mk .csv pid stages).process (.vstr s) =
      (Adapter.mk .csv pid []).process (.vstr s) ∧
    (Adapter.mk .csv pid stages).process (.vstr s) =
      "User activity logged: " ++
        toString ((pySplit (pyStrip s) (Char.ofNat 10)).length - 1) ++
        " actions processed" ∧
    (d.isStr = false →
      (Adapter.mk .csv pid stages).process d = pyStr (runStages stages d)) ∧
    mainManager.process_with_pipeline "CSV" (.vstr "user,action\nJohn,login") =
      "User activity logged: 1 actions processed" := by
  refine ⟨(csv_process_vstr pid stages s).trans (csv_process_vstr pid [] s).symm,
    csv_process_vstr pid stages s, ?_, by decide⟩
  intro h
  cases d <;> first | rfl | simp [Val.isStr] at h

/-- Witness for C2: an int payload is not a string and takes the generic
fallback. -/
theorem C2_witness :
    Val.isStr (.vint 3) = false ∧
    (Adapter.mk .csv "CSV_001" [.transform]).process (.vint 3) =
      pyStr (runStages [.transform] (.vint 3)) :=
  ⟨rfl, (C2_csv_counts_original "CSV_001" [.transform] "" (.vint 3)).2.2.1 rfl⟩

/-- Claim C10: on every string payload the CSV adapter produces the
line-report template (never the generic fallback), with the reported count
equal to the number of newline characters remaining after stripping — the
line count of the stripped payload minus one; an empty or all-whitespace
payload reports 0, and trailing newlines do not change the report. -/
theorem C10_csv_string_never_fallback (pid : String) (stages : List Stage)
    (s : String) :
    (Adapter.mk .csv pid stages).process (.vstr s) =
      "User activity logged: " ++
        toString ((pyStrip s).data.count (Char.ofNat 10)) ++
        " actions processed" ∧
    (Adapter.mk .csv pid stages).process (.vstr "") =
      "User activity logged: 0 actions processed" ∧
    (Adapter.mk .csv pid stages).process (.vstr " \n \n ") =
      "User activity logged: 0 actions processed" ∧
    (Adapter.mk .csv pid stages).process (.vstr "user,action\nJohn,login\n\n") =
      (Adapter.mk .csv pid stages).process (.vstr "user,action\nJohn,login") := by
  refine ⟨?_, ?_, ?_, ?_⟩
  · rw [csv_process_vstr, pySplit_length, Nat.add_sub_cancel]
  · rw [csv_process_vstr]
    decide
  · rw [csv_process_vstr]
    decide
  · rw [csv_process_vstr, csv_process_vstr]
    decide

/-- Claim C4: when the transformed result is a dict containing `"sensor"`,
the JSON adapter renders the sensor-reading sentence with `value` defaulting
to `0` and `unit` to the empty string; a dict without `"sensor"` and every
non-dict result render as the generic string form; and the spec's concrete
example — the sensor dict sent through the transform stage, then finalized —
produces the exact sentence. -/
theorem C4_json_finalize (pid : String) (stages : List Stage) (d : Val)
    (dd : List (String × Val)) (hres : runStages stages d = .vdict dd) :
    (∀ sv, dictLookup dd "sensor" = some sv →
      (Adapter.mk .json pid stages).process d =
        "Processed " ++ pyStr sv ++ " reading: " ++
          pyStr ((dictLookup dd "value").getD (.vint 0)) ++ "°" ++
          pyStr ((dictLookup dd "unit").getD (.vstr "")) ++ " (Normal range)") ∧
    (dictLookup dd "sensor" = none →
      (Adapter.mk .json pid stages).process d = pyStr (.vdict dd)) ∧
    (∀ v : Val, v.isDict = false → JSONAdapter.finalize v = pyStr v) ∧
    JSONAdapter.finalize (TransformStage.process (.vdict
      [("sensor", .vstr "temp"), ("value", .vfloat (mkRat 47 2)),
        ("unit", .vstr "C")])) =
      "Processed temp reading: 23.5°C (Normal range)" := by
  refine ⟨?_, ?_, ?_, by decide⟩
  · intro sv hsv
    show JSONAdapter.finalize (runStages stages d) = _
    rw [hres]
    simp only [JSONAdapter.finalize, hsv]
  · intro hnone
    show JSONAdapter.finalize (runStages stages d) = _
    rw [hres]
    simp only [JSONAdapter.finalize, hnone]
  · intro v hv
    cases v <;> first | rfl | simp [Val.isDict] at hv

/-- Witness for C4: a bare sensor dict (no stages, no value/unit keys) takes
the defaults. -/
theorem C4_witness :
    (Adapter.mk .json "JSON_001" []).process (.vdict [("sensor", .vstr "temp")]) =
      "Processed temp reading: 0° (Normal range)" := by
  have h := (C4_json_finalize "JSON_001" [] (.vdict [("sensor", .vstr "temp")])
      [("sensor", .vstr "temp")] rfl).1 (.vstr "temp") rfl
  exact h.trans (by decide)

/-- Claim C3: when the transformed result is a list, the Stream adapter
reports its length and, when all elements are numeric and the list is
nonempty, the arithmetic mean formatted to one decimal (the formatter's
rounding is round-half-to-even on tenths, per `roundHalfEvenSpec`); a list
with any non-numeric element reports the mean as `fmt1f 0 = "0.0"`, and the
empty list reports average 0 rather than a division fault; a non-list
result falls back to the generic string form. -/
theorem C3_stream_summary (pid : String) (stages : List Stage) (d : Val)
    (ys : List Val) (hres : runStages stages d = .vlist ys) :
    (ys.all Val.isNumeric = true → 0 < ys.length →
      (Adapter.mk .stream pid stages).process d =
        "Stream summary: " ++ toString ys.length ++ " readings, avg: " ++
          fmt1f ((ys.map Val.toF).sum / (ys.length : ℚ)) ++ "°C") ∧
    (ys.all Val.isNumeric = false →
      (Adapter.mk .stream pid stages).process d =
        "Stream summary: " ++ toString ys.length ++ " readings, avg: " ++
          fmt1f 0 ++ "°C") ∧
    fmt1f 0 = "0.0" ∧
    (ys = [] →
      (Adapter.mk .stream pid stages).process d =
        "Stream summary: 0 readings, avg: 0.0°C") ∧
    (∀ q : ℚ, roundTenthsEven q = roundHalfEvenSpec (q * 10)) ∧
    (∀ v : Val, v.isList = false → StreamAdapter.finalize v = pyStr v) := by
  refine ⟨?_, ?_, by decide, ?_, roundTenthsEven_eq, ?_⟩
  · intro hnum hlen
    show StreamAdapter.finalize (runStages stages d) = _
    rw [hres]
    simp only [StreamAdapter.finalize, hnum, if_true, if_pos hlen]
    rw [qdiv_eq, qsum_eq, qofNat_eq]
  · intro hnum
    show StreamAdapter.finalize (runStages stages d) = _
    rw [hres]
    simp only [StreamAdapter.finalize, hnum, Bool.false_eq_true, if_false]
    have hz : (if 0 < ys.length then qdiv 0 (qofNat ys.length) else 0) = 0 := by
      split
      · rw [qdiv_eq]
        exact zero_div _
      · rfl
    rw [hz]
  · intro hnil
    subst hnil
    show StreamAdapter.finalize (runStages stages d) = _
    rw [hres]
    decide
  · intro v hv
    cases v <;> first | rfl | simp [Val.isList] at hv

/-- Witness for C3: a two-int stream averages to 1.5. -/
theorem C3_witness :
    [Val.vint 1, Val.vint 2].all Val.isNumeric = true ∧
    0 < ([Val.vint 1, Val.vint 2]).length ∧
    (Adapter.mk .stream "STREAM_001" []).process (.vlist [.vint 1, .vint 2]) =
      "Stream summary: 2 readings, avg: 1.5°C" := by
  refine ⟨rfl, by decide, ?_⟩
  have h := (C3_stream_summary "STREAM_001" [] (.vlist [.vint 1, .vint 2])
      [.vint 1, .vint 2] rfl).1 rfl (by decide)
  refine h.trans ?_
  have hv : (([Val.vint 1, Val.vint 2].map Val.toF).sum /
      (([Val.vint 1, Val.vint 2].length : Nat) : ℚ)) = mkRat 3 2 := by
    simp [Val.toF]
    rw [Rat.mkRat_eq_div]
    norm_num
  rw [hv]
  decide
